import Mathlib

/-!
Verification of the negotiation engine of the Schedule-Assistant repository
(`src/app/scheduler.py`).

The embedding models JSON values as an inductive type `JVal` (the values
produced by Python's `json.loads`; floating-point numbers and string escape
sequences are outside the model, which is adequate here because the Move
schema only uses objects, arrays, strings and integers).  Python code that
can raise an exception is embedded as a function into `Option`: a `none`
result of such a function stands for an unhandled Python exception
(`KeyError`, `TypeError`, `AttributeError`), while `some` carries the value
the Python function returns.
-/

namespace Scheduler

/-- JSON values, the result type of Python `json.loads` (floats and escape
sequences are outside the model). -/
inductive JVal : Type where
  | null : JVal
  | bool : Bool → JVal
  | int : Int → JVal
  | str : String → JVal
  | arr : List JVal → JVal
  | obj : List (String × JVal) → JVal

/-- Python equality test of a JSON value against a string literal
(`status == "AGREED"`): true only for the equal string. -/
def isStr (v : JVal) (s : String) : Bool :=
  match v with
  | .str t => t == s
  | _ => false

/-- Python `dict` lookup on the association-list representation of a JSON
object (`d[key]` / `d.get(key)`): first binding of the key wins; parsed
Python dicts have unique keys. -/
def getField : List (String × JVal) → String → Option JVal
  | [], _ => none
  | (k, v) :: r, key => if k = key then some v else getField r key

/-- Python truthiness (`if not response_data:` in the orchestrator) of a
JSON value: `None`, `False`, `0`, `""`, `[]` and an empty dict are falsy. -/
def pyFalsy : JVal → Bool
  | .null => true
  | .bool b => !b
  | .int n => n == 0
  | .str s => s.isEmpty
  | .arr xs => xs.isEmpty
  | .obj fs => fs.isEmpty

def joinComma (l : List String) : String := String.intercalate ", " l

mutual

/-- Model of Python `json.dumps` on `JVal` (default separators; strings are
assumed to contain no characters that JSON-escapes, which holds for every
string this program serializes). -/
def JVal.dumps : JVal → String
  | .null => "null"
  | .bool true => "true"
  | .bool false => "false"
  | .int n => toString n
  | .str s => "\"" ++ s ++ "\""
  | .arr xs => "[" ++ joinComma (dumpsList xs) ++ "]"
  | .obj fs => "\x7b" ++ joinComma (dumpsObj fs) ++ "\x7d"

def dumpsList : List JVal → List String
  | [] => []
  | v :: r => JVal.dumps v :: dumpsList r

def dumpsObj : List (String × JVal) → List String
  | [] => []
  | (k, v) :: r => ("\"" ++ k ++ "\": " ++ JVal.dumps v) :: dumpsObj r

end

/-! ## Constraint validator: `check_global_constraints` (scheduler.py lines 46-81) -/

/-- The weekday keys of `daily_coverage`, in insertion order. -/
def dayNames : List String := ["Monday", "Tuesday", "Wednesday", "Thursday", "Friday"]

/-- Pointwise update of a string-indexed map, modelling assignment into a
Python dict that already holds the key. -/
def fupd {α : Type} (f : String → α) (k : String) (v : α) : String → α :=
  fun x => if x = k then v else f x

/-- The values Python accepts on the right of `total_hours[agent_id] += hours`:
integers, and booleans (which Python treats as 0/1).  Any other value raises
`TypeError`, modelled as `none`. -/
def jvalAsInt : JVal → Option Int
  | .int n => some n
  | .bool b => some (if b then 1 else 0)
  | _ => none

/-- Python iteration `for shift in schedule:` over whatever value occupies
the `proposed_schedule` slot: lists yield their elements, strings yield
their characters, dicts yield their keys; numbers, booleans and `None` are
not iterable (`TypeError`, modelled as `none`). -/
def schedIter : JVal → Option (List JVal)
  | .arr xs => some xs
  | .str s => some (s.toList.map fun c => JVal.str (String.singleton c))
  | .obj fs => some (fs.map fun kv => JVal.str kv.1)
  | _ => none

/-- One iteration of the shift loop of `check_global_constraints`:
`agent_id = shift['agent']` (KeyError when absent or `shift` is not a dict),
`hours = shift.get('total_hours', 0)`, `day = shift['day']` (KeyError when
absent), `total_hours[agent_id] += hours` (KeyError for an agent other than
AgentA/AgentB, TypeError for non-integer hours), and
`daily_coverage[day].append(hours)` (KeyError for a day outside Monday-Friday). -/
def procShift (cov : String → List Int) (tot : String → Int) (sh : JVal) :
    Option ((String → List Int) × (String → Int)) :=
  match sh with
  | .obj fs =>
    match getField fs "agent" with
    | none => none
    | some agentV =>
      let hoursV := (getField fs "total_hours").getD (JVal.int 0)
      match getField fs "day" with
      | none => none
      | some dayV =>
        match agentV with
        | .str a =>
          if a = "AgentA" ∨ a = "AgentB" then
            match jvalAsInt hoursV with
            | none => none
            | some h =>
              match dayV with
              | .str d =>
                if d ∈ dayNames then
                  some (fupd cov d (cov d ++ [h]), fupd tot a (tot a + h))
                else none
              | _ => none
          else none
        | _ => none
  | _ => none

/-- The whole `for shift in schedule:` loop, threading `daily_coverage`
(summands per day) and `total_hours` (per agent). -/
def procShifts : List JVal → (String → List Int) → (String → Int) →
    Option ((String → List Int) × (String → Int))
  | [], cov, tot => some (cov, tot)
  | sh :: rest, cov, tot =>
    match procShift cov tot sh with
    | none => none
    | some (cov2, tot2) => procShifts rest cov2 tot2

/-- `check_global_constraints` (scheduler.py lines 46-81).  Returns `False`
at the first weekday whose summed coverage is below 8 hours; the trailing
per-agent loop over the soft 25-hour cap only prints a warning and never
changes the result, so the function returns `True` whenever every weekday
meets the minimum.  `none` models an unhandled Python exception. -/
def check_global_constraints (schedule : JVal) : Option Bool :=
  match schedIter schedule with
  | none => none
  | some shifts =>
    match procShifts shifts (fun _ => []) (fun _ => 0) with
    | none => none
    | some (cov, _tot) =>
      some (dayNames.all fun d => decide (8 ≤ (cov d).sum))

/-! ## Well-formed (schema-conforming) shifts -/

/-- The two agents admitted by the Move schema. -/
inductive Agent : Type where
  | A | B
deriving DecidableEq, Repr

def Agent.name : Agent → String
  | .A => "AgentA"
  | .B => "AgentB"

/-- The five weekdays admitted by the Move schema. -/
inductive Day : Type where
  | monday | tuesday | wednesday | thursday | friday
deriving DecidableEq, Repr

def Day.name : Day → String
  | .monday => "Monday"
  | .tuesday => "Tuesday"
  | .wednesday => "Wednesday"
  | .thursday => "Thursday"
  | .friday => "Friday"

/-- A schema-conforming shift assignment: agent and day drawn from the
schema enums, `total_hours` an integer that may be absent (the validator
reads it with `.get('total_hours', 0)`). -/
structure Shift where
  agent : Agent
  day : Day
  total_hours : Option Int
deriving DecidableEq, Repr

/-- The JSON object carrying a well-formed shift. -/
def shiftToJVal (sh : Shift) : JVal :=
  .obj ([("agent", JVal.str sh.agent.name), ("day", JVal.str sh.day.name)] ++
    (match sh.total_hours with
     | some n => [("total_hours", JVal.int n)]
     | none => []))

/-- The JSON array carrying a well-formed schedule. -/
def toSched (s : List Shift) : JVal := .arr (s.map shiftToJVal)

/-- Summed `total_hours` of the shifts of `s` that fall on the weekday
named `dn`. -/
def hoursOnName (s : List Shift) (dn : String) : Int :=
  (s.map fun sh => if sh.day.name = dn then sh.total_hours.getD 0 else 0).sum

/-- Summed `total_hours` of the shifts of `s` on day `d`. -/
def daySum (s : List Shift) (d : Day) : Int :=
  (s.map fun sh => if sh.day = d then sh.total_hours.getD 0 else 0).sum

/-! ## Orchestrator: `run_negotiation_simulation` (scheduler.py lines 196-293) -/

/-- One entry of the shared conversation history
(`{"role": ..., "content": ...}`). -/
structure HistEntry where
  role : String
  content : String
deriving DecidableEq, Repr

/-- The terminal outcomes of a session.  `agreed` is the AGREED-and-valid
break, `deadlock` the DEADLOCK break, `generatorFailure` the
`if not response_data: break` exit, and `roundLimitExceeded` covers both the
round-limit break and the natural exhaustion of the round loop. -/
inductive Outcome : Type where
  | agreed | deadlock | roundLimitExceeded | generatorFailure
deriving DecidableEq, Repr

/-- The observable state of a finished session: `final_schedule`, the full
history, the terminal outcome, and the trace of `current_agent_index`
values of the executed rounds. -/
structure SessionResult where
  final_schedule : Option JVal
  history : List HistEntry
  outcome : Outcome
  turns : List Nat

def MAX_DEBATE_ROUNDS : Nat := 5

def apos : String := String.singleton (Char.ofNat 39)

/-- `goal_a` from `setup_agents` (the double space before "on" is in the
source). -/
def goal_a : String :=
  "Client A prefers 20 hours of work per week, specifically focusing  on Monday, Tuesday, and Wednesday."

/-- The seed user message of the history (scheduler.py lines 212-218). -/
def initial_message : String :=
  "Start the negotiation. Propose a complete 5-day schedule that meets your client" ++
    apos ++ "s goal (" ++ goal_a ++
    ") while adhering to the hard constraints. The opponent agent (AgentB) will respond next."

/-- The corrective user message appended when an AGREED schedule fails the
validator (scheduler.py lines 259-260). -/
def rejection_message : String :=
  "SYSTEM REJECTED PROPOSAL: The agreed schedule violates hard system constraints (refer to the constraints section). You must continue negotiating and submit a valid schedule."

/-- The round loop of `run_negotiation_simulation` (lines 223-271).  `gen`
maps a round number to the value `call_ollama_api` returned for that round
(`none` for a Python `None`); quantifying over `gen` covers every possible
sequence of generated moves.  The fuel argument counts the rounds the
`range` loop has left; the trailing `turns` accumulator records
`current_agent_index` for each executed round.  A `none` result models an
unhandled Python exception escaping the loop. -/
def runLoop (gen : Nat → Option JVal) :
    Nat → Nat → Nat → List HistEntry → List Nat → Option SessionResult
  | 0, _, _, hist, turns =>
    some ⟨none, hist, Outcome.roundLimitExceeded, turns⟩
  | fuel + 1, round_num, idx, hist, turns =>
    match gen round_num with
    | none => some ⟨none, hist, Outcome.generatorFailure, turns ++ [idx]⟩
    | some rd =>
      match pyFalsy rd with
      | true => some ⟨none, hist, Outcome.generatorFailure, turns ++ [idx]⟩
      | false =>
        match rd with
        | .obj fs =>
          match isStr ((getField fs "deal_status").getD (JVal.str "CONTINUE")) "AGREED" with
          | true =>
            match check_global_constraints ((getField fs "proposed_schedule").getD (JVal.arr [])) with
            | none => none
            | some true =>
              some ⟨some ((getField fs "proposed_schedule").getD (JVal.arr [])),
                hist ++ [⟨"model", JVal.dumps (JVal.obj fs)⟩], Outcome.agreed, turns ++ [idx]⟩
            | some false =>
              runLoop gen fuel (round_num + 1) (1 - idx)
                (hist ++ [⟨"model", JVal.dumps (JVal.obj fs)⟩, ⟨"user", rejection_message⟩])
                (turns ++ [idx])
          | false =>
            match isStr ((getField fs "deal_status").getD (JVal.str "CONTINUE")) "DEADLOCK" with
            | true =>
              some ⟨none, hist ++ [⟨"model", JVal.dumps (JVal.obj fs)⟩], Outcome.deadlock,
                turns ++ [idx]⟩
            | false =>
              match round_num == MAX_DEBATE_ROUNDS with
              | true =>
                some ⟨none, hist ++ [⟨"model", JVal.dumps (JVal.obj fs)⟩],
                  Outcome.roundLimitExceeded, turns ++ [idx]⟩
              | false =>
                runLoop gen fuel (round_num + 1) (1 - idx)
                  (hist ++ [⟨"model", JVal.dumps (JVal.obj fs)⟩]) (turns ++ [idx])
        | _ => none

/-- Values Python can render with an alignment format specifier such as
`:<20` (strings, integers, booleans); lists, dicts and `None` raise
`TypeError` there. -/
def fmtOk : JVal → Bool
  | .str _ => true
  | .int _ => true
  | .bool _ => true
  | _ => false

/-- Whether the final-schedule display block (lines 274-291) runs without
an exception: every shift row reads `shift['hours']` and
`shift['total_hours']` with plain indexing, so both keys must be present
and format-friendly. -/
def displayOk : JVal → Bool
  | .arr shifts =>
    shifts.all fun sh =>
      match sh with
      | .obj fs =>
        (match getField fs "hours" with
         | some v => fmtOk v
         | none => false) &&
        (match getField fs "total_hours" with
         | some v => fmtOk v
         | none => false)
      | _ => false
  | _ => false

/-- `run_negotiation_simulation` (lines 196-293): seeds the history, runs
the round loop, and then executes the final-output block, which crashes
(`none`) when the agreed schedule lacks a displayable `hours` or
`total_hours` on some shift. -/
def run_negotiation_simulation (gen : Nat → Option JVal) : Option SessionResult :=
  match runLoop gen MAX_DEBATE_ROUNDS 1 0 [⟨"user", initial_message⟩] [] with
  | none => none
  | some res =>
    match res.final_schedule with
    | none => some res
    | some s =>
      if pyFalsy s then some res
      else if displayOk s then some res else none

/-! ## Move generator adapter: `call_ollama_api` (scheduler.py lines 86-148) -/

/-- The whitespace characters Python `str.strip()` removes (the ASCII
ones; the program only meets ASCII model output). -/
def wsChar (c : Char) : Bool :=
  c == ' ' || c == Char.ofNat 9 || c == Char.ofNat 10 || c == Char.ofNat 13 ||
    c == Char.ofNat 11 || c == Char.ofNat 12

/-- Model of Python `str.strip()`. -/
def pyStrip (s : String) : String :=
  String.mk (((s.toList.dropWhile wsChar).reverse.dropWhile wsChar).reverse)

/-- Replace every occurrence of a non-empty pattern, left to right. -/
def replaceChars : Nat → List Char → List Char → List Char → List Char
  | 0, cs, _, _ => cs
  | _, [], _, _ => []
  | fuel + 1, c :: cs, pat, repl =>
    if pat.isPrefixOf (c :: cs) then
      repl ++ replaceChars fuel ((c :: cs).drop pat.length) pat repl
    else
      c :: replaceChars fuel cs pat repl

/-- Model of Python `str.replace` (all occurrences). -/
def replaceAll (s pat repl : String) : String :=
  String.mk (replaceChars (s.length + 1) s.toList pat.toList repl.toList)

/-- The code-fence cleanup of `call_ollama_api` (lines 125-128):
`.strip()`, drop every "```json" and "```", `.strip()` again. -/
def stripFences (s : String) : String :=
  pyStrip (replaceAll (replaceAll (pyStrip s) "```json" "") "```" "")

/-- JSON whitespace skipped by the parser. -/
def skipWs : List Char → List Char
  | [] => []
  | c :: rest =>
    if c == ' ' || c == Char.ofNat 9 || c == Char.ofNat 10 || c == Char.ofNat 13 then
      skipWs rest
    else c :: rest

def lbraceC : Char := Char.ofNat 123
def rbraceC : Char := Char.ofNat 125
def quoteC : Char := Char.ofNat 34
def backslashC : Char := Char.ofNat 92

/-- Body of a JSON string after the opening quote; escape sequences are
outside the model (a backslash fails the parse). -/
def parseStrBody (cs : List Char) : Option (String × List Char) :=
  let content := cs.takeWhile fun c => !(c == quoteC) && !(c == backslashC)
  match cs.drop content.length with
  | c :: rest => if c == quoteC then some (String.mk content, rest) else none
  | [] => none

def digitsToNat (ds : List Char) : Nat :=
  ds.foldl (fun acc c => acc * 10 + (c.toNat - 48)) 0

/-- Insert a parsed member into an object under Python-dict semantics:
a repeated key keeps its first position but takes the new value. -/
def setField : List (String × JVal) → String → JVal → List (String × JVal)
  | [], k, v => [(k, v)]
  | (k0, v0) :: r, k, v =>
    if k0 = k then (k0, v) :: r else (k0, v0) :: setField r k v

mutual

/-- Model of the grammar Python `json.loads` accepts, minus floats and
string escapes (which this program never produces in valid runs): one JSON
value plus the unconsumed remainder. -/
def parseVal : Nat → List Char → Option (JVal × List Char)
  | 0, _ => none
  | fuel + 1, cs =>
    match skipWs cs with
    | [] => none
    | c :: rest =>
      if c == lbraceC then parseMembers fuel rest
      else if c == '[' then parseItems fuel rest
      else if c == quoteC then
        match parseStrBody rest with
        | some (s, rest2) => some (JVal.str s, rest2)
        | none => none
      else if c == 't' then
        if rest.take 3 = ['r', 'u', 'e'] then some (JVal.bool true, rest.drop 3) else none
      else if c == 'f' then
        if rest.take 4 = ['a', 'l', 's', 'e'] then some (JVal.bool false, rest.drop 4) else none
      else if c == 'n' then
        if rest.take 3 = ['u', 'l', 'l'] then some (JVal.null, rest.drop 3) else none
      else if c == '-' then
        let ds := rest.takeWhile Char.isDigit
        if ds.isEmpty then none
        else some (JVal.int (-(digitsToNat ds : Int)), rest.drop ds.length)
      else if c.isDigit then
        let ds := (c :: rest).takeWhile Char.isDigit
        some (JVal.int (digitsToNat ds : Int), (c :: rest).drop ds.length)
      else none

/-- Object members after the opening brace. -/
def parseMembers : Nat → List Char → Option (JVal × List Char)
  | 0, _ => none
  | fuel + 1, cs =>
    match skipWs cs with
    | [] => none
    | c :: rest =>
      if c == rbraceC then some (JVal.obj [], rest)
      else if c == quoteC then
        match parseStrBody rest with
        | some (k, cs2) =>
          match skipWs cs2 with
          | ':' :: cs3 =>
            match parseVal fuel cs3 with
            | some (v, cs4) => parseMembersRest fuel cs4 (setField [] k v)
            | none => none
          | _ => none
        | none => none
      else none

def parseMembersRest : Nat → List Char → List (String × JVal) → Option (JVal × List Char)
  | 0, _, _ => none
  | fuel + 1, cs, acc =>
    match skipWs cs with
    | [] => none
    | c :: rest =>
      if c == rbraceC then some (JVal.obj acc, rest)
      else if c == ',' then
        match skipWs rest with
        | c2 :: rest2 =>
          if c2 == quoteC then
            match parseStrBody rest2 with
            | some (k, cs2) =>
              match skipWs cs2 with
              | ':' :: cs3 =>
                match parseVal fuel cs3 with
                | some (v, cs4) => parseMembersRest fuel cs4 (setField acc k v)
                | none => none
              | _ => none
            | none => none
          else none
        | [] => none
      else none

/-- Array items after the opening bracket. -/
def parseItems : Nat → List Char → Option (JVal × List Char)
  | 0, _ => none
  | fuel + 1, cs =>
    match skipWs cs with
    | [] => none
    | c :: rest =>
      if c == ']' then some (JVal.arr [], rest)
      else
        match parseVal fuel (c :: rest) with
        | some (v, cs2) => parseItemsRest fuel cs2 [v]
        | none => none

def parseItemsRest : Nat → List Char → List JVal → Option (JVal × List Char)
  | 0, _, _ => none
  | fuel + 1, cs, acc =>
    match skipWs cs with
    | [] => none
    | c :: rest =>
      if c == ']' then some (JVal.arr acc.reverse, rest)
      else if c == ',' then
        match parseVal fuel rest with
        | some (v, cs2) => parseItemsRest fuel cs2 (v :: acc)
        | none => none
      else none

end

/-- Model of Python `json.loads`: parse one value and demand only trailing
whitespace; `none` models `json.JSONDecodeError`. -/
def json_loads (s : String) : Option JVal :=
  match parseVal (2 * s.length + 2) s.toList with
  | some (v, rest) => if (skipWs rest).isEmpty then some v else none
  | none => none

/-- One transport attempt of `requests.post` + `raise_for_status` +
`response.json()`: either a `requests.exceptions.RequestException` (whose
text may or may not contain "ConnectionRefusedError"), or a JSON response
body. -/
inductive TransportR : Type where
  | exc (connRefused : Bool)
  | ok (body : JVal)

/-- `result.get('response', '').strip()`-prefix of the success path:
`.get` on a non-dict body raises `AttributeError`, `.strip()` on a
non-string `response` value raises `AttributeError`; a missing key yields
the empty string. -/
def getResponseText : JVal → Option String
  | .obj fs =>
    match getField fs "response" with
    | none => some ""
    | some (.str s) => some s
    | some _ => none
  | _ => none

/-- The retry loop of `call_ollama_api` (lines 118-148), over the four
attempts of `range(4)`.  The outer `Option` models an unhandled exception;
the inner value is what the Python function returns (`none` for `None`).
The `time.sleep` backoff has no observable effect in the model. -/
def apiGo (transport : Nat → TransportR) : Nat → Nat → Option (Option JVal)
  | 0, _ => some none
  | fuel + 1, attempt =>
    match transport attempt with
    | .exc connRefused =>
      match connRefused with
      | true => some none
      | false =>
        match Nat.blt attempt 3 with
        | true => apiGo transport fuel (attempt + 1)
        | false => some none
    | .ok body =>
      match getResponseText body with
      | none => none
      | some s =>
        match json_loads (stripFences s) with
        | none => some none
        | some v => some (some v)

/-- `call_ollama_api` as a function of the transport behavior of its four
possible attempts. -/
def call_ollama_api (transport : Nat → TransportR) : Option (Option JVal) :=
  apiGo transport 4 0

/-! ## Concrete scenarios used as witnesses and counterexamples -/

/-- The alternating index sequence `[i, 1-i, i, ...]` of length `m`. -/
def altList : Nat → Nat → List Nat
  | _, 0 => []
  | i, m + 1 => i :: altList (1 - i) m

/-- The seed user entry of every session history. -/
def userInit : HistEntry := ⟨"user", initial_message⟩

/-- The user-role rejection entry appended after an invalid agreement. -/
def userRej : HistEntry := ⟨"user", rejection_message⟩

/-- The agent-turn entry: role "model", content the serialized move. -/
def modelEntry (fs : List (String × JVal)) : HistEntry :=
  ⟨"model", JVal.dumps (JVal.obj fs)⟩

/-- A move declaring DEADLOCK. -/
def move_dead_fields : List (String × JVal) := [("deal_status", JVal.str "DEADLOCK")]

def gen_dead : Nat → Option JVal := fun _ => some (JVal.obj move_dead_fields)

/-- The session result of a first-round DEADLOCK. -/
def res_dead : SessionResult :=
  ⟨none,
   [⟨"user", initial_message⟩, ⟨"model", JVal.dumps (JVal.obj move_dead_fields)⟩],
   Outcome.deadlock, [0]⟩

/-- One schema-complete AgentA shift row for the given day. -/
def shiftAJ (d : String) : JVal :=
  JVal.obj [("agent", JVal.str "AgentA"), ("day", JVal.str d),
    ("hours", JVal.str "9:00 AM - 5:00 PM"), ("total_hours", JVal.int 8)]

/-- Scenario A schedule: AgentA covers all five weekdays with 8 hours. -/
def schedAJ : JVal := JVal.arr (dayNames.map shiftAJ)

/-- Scenario A move: AGREED with the all-AgentA full-coverage schedule. -/
def moveA_fields : List (String × JVal) :=
  [("proposal_summary", JVal.str "AgentA works the full week"),
   ("proposed_schedule", schedAJ),
   ("response_to_opponent", JVal.str "agree"),
   ("deal_status", JVal.str "AGREED")]

def gen_A : Nat → Option JVal := fun _ => some (JVal.obj moveA_fields)

/-- The session result of scenario A: first-round agreement. -/
def res_A : SessionResult :=
  ⟨some schedAJ,
   [⟨"user", initial_message⟩, ⟨"model", JVal.dumps (JVal.obj moveA_fields)⟩],
   Outcome.agreed, [0]⟩

/-- A move that claims AGREED with an empty (hence invalid) schedule. -/
def moveInv_fields : List (String × JVal) :=
  [("deal_status", JVal.str "AGREED"), ("proposed_schedule", JVal.arr [])]

def gen_inv : Nat → Option JVal := fun _ => some (JVal.obj moveInv_fields)

/-- The session result of five rounds of AGREED-but-invalid moves. -/
def res_inv : SessionResult :=
  ⟨none,
   [⟨"user", initial_message⟩,
    ⟨"model", JVal.dumps (JVal.obj moveInv_fields)⟩, ⟨"user", rejection_message⟩,
    ⟨"model", JVal.dumps (JVal.obj moveInv_fields)⟩, ⟨"user", rejection_message⟩,
    ⟨"model", JVal.dumps (JVal.obj moveInv_fields)⟩, ⟨"user", rejection_message⟩,
    ⟨"model", JVal.dumps (JVal.obj moveInv_fields)⟩, ⟨"user", rejection_message⟩,
    ⟨"model", JVal.dumps (JVal.obj moveInv_fields)⟩, ⟨"user", rejection_message⟩],
   Outcome.roundLimitExceeded, [0, 1, 0, 1, 0]⟩

/-- A schedule whose shift names an agent outside the AgentA/AgentB enum. -/
def badSched : JVal :=
  JVal.arr [JVal.obj [("agent", JVal.str "AgentC"), ("day", JVal.str "Monday"),
    ("total_hours", JVal.int 8)]]

/-- A move agreeing on the out-of-enum schedule. -/
def gen_bad : Nat → Option JVal :=
  fun _ => some (JVal.obj [("deal_status", JVal.str "AGREED"), ("proposed_schedule", badSched)])

/-- A generator turn whose response parsed to the empty JSON object. -/
def gen_empty : Nat → Option JVal := fun _ => some (JVal.obj [])

/-- First attempt succeeds with a response text that parses to the empty
JSON object. -/
def t_parse_ok : Nat → TransportR :=
  fun _ => TransportR.ok (JVal.obj [("response", JVal.str "\x7b\x7d")])

/-- First attempt succeeds with a response text that is not JSON. -/
def t_garbage : Nat → TransportR :=
  fun _ => TransportR.ok (JVal.obj [("response", JVal.str "not json")])

/-- Another non-JSON response text. -/
def t_garbage2 : Nat → TransportR :=
  fun _ => TransportR.ok (JVal.obj [("response", JVal.str "definitely not json either")])

/-- Every attempt raises a connection-refused transport error. -/
def t_refused : Nat → TransportR := fun _ => TransportR.exc true

/-- A typed schedule giving every weekday 8 hours through AgentA. -/
def schedAllA : List Shift :=
  [⟨Agent.A, Day.monday, some 8⟩, ⟨Agent.A, Day.tuesday, some 8⟩,
   ⟨Agent.A, Day.wednesday, some 8⟩, ⟨Agent.A, Day.thursday, some 8⟩,
   ⟨Agent.A, Day.friday, some 8⟩]

/-- A typed schedule meeting every daily minimum while giving AgentA 30
hours for the week (over the soft 25-hour cap). -/
def overCapSchedule : List Shift :=
  [⟨Agent.A, Day.monday, some 8⟩, ⟨Agent.A, Day.tuesday, some 8⟩,
   ⟨Agent.A, Day.wednesday, some 8⟩, ⟨Agent.A, Day.thursday, some 6⟩,
   ⟨Agent.B, Day.thursday, some 2⟩, ⟨Agent.B, Day.friday, some 8⟩]

/-! ## Validator lemmas -/

/-- A well-formed shift row is processed without an exception and appends
its hours to its day while charging its agent. -/
theorem procShift_typed (cov : String → List Int) (tot : String → Int) (sh : Shift) :
    procShift cov tot (shiftToJVal sh) =
      some (fupd cov sh.day.name (cov sh.day.name ++ [sh.total_hours.getD 0]),
            fupd tot sh.agent.name (tot sh.agent.name + sh.total_hours.getD 0)) := by
  rcases sh with ⟨a, d, th⟩
  cases a <;> cases d <;> cases th <;> rfl

theorem hoursOnName_cons (sh : Shift) (r : List Shift) (dn : String) :
    hoursOnName (sh :: r) dn =
      (if sh.day.name = dn then sh.total_hours.getD 0 else 0) + hoursOnName r dn := by
  simp [hoursOnName]

/-- Processing a well-formed schedule never raises, and the coverage list
of each day name sums to the schedule hours on that name. -/
theorem procShifts_typed :
    ∀ (s : List Shift) (cov : String → List Int) (tot : String → Int),
      ∃ cov2 tot2, procShifts (s.map shiftToJVal) cov tot = some (cov2, tot2) ∧
        ∀ dn, (cov2 dn).sum = (cov dn).sum + hoursOnName s dn := by
  intro s
  induction s with
  | nil =>
    intro cov tot
    exact ⟨cov, tot, rfl, fun dn => by simp [hoursOnName]⟩
  | cons sh r ih =>
    intro cov tot
    obtain ⟨cov2, tot2, heq, hsum⟩ :=
      ih (fupd cov sh.day.name (cov sh.day.name ++ [sh.total_hours.getD 0]))
        (fupd tot sh.agent.name (tot sh.agent.name + sh.total_hours.getD 0))
    refine ⟨cov2, tot2, ?_, ?_⟩
    · simp only [List.map_cons, procShifts, procShift_typed]
      exact heq
    · intro dn
      have hf : ((fupd cov sh.day.name (cov sh.day.name ++ [sh.total_hours.getD 0])) dn).sum
          = (cov dn).sum + (if sh.day.name = dn then sh.total_hours.getD 0 else 0) := by
        by_cases h : dn = sh.day.name
        · subst h
          simp [fupd]
        · have h2 : ¬ sh.day.name = dn := fun hh => h hh.symm
          simp [fupd, h, h2]
      rw [hsum dn, hf, hoursOnName_cons]
      ring

/-- The validator on a well-formed schedule computes the per-day-name
coverage test. -/
theorem check_typed_eq (s : List Shift) :
    check_global_constraints (toSched s) =
      some (dayNames.all fun dn => decide (8 ≤ hoursOnName s dn)) := by
  obtain ⟨cov2, tot2, heq, hsum⟩ := procShifts_typed s (fun _ => []) (fun _ => 0)
  have hsum0 : ∀ dn, (cov2 dn).sum = hoursOnName s dn := by
    intro dn
    rw [hsum dn]
    simp
  simp only [check_global_constraints, toSched, schedIter]
  rw [heq]
  have hfun : (fun d => decide (8 ≤ (cov2 d).sum)) =
      (fun dn => decide (8 ≤ hoursOnName s dn)) := by
    funext dn
    rw [hsum0 dn]
  show some (dayNames.all fun d => decide (8 ≤ (cov2 d).sum)) = _
  rw [hfun]

theorem Day.name_inj : ∀ {a b : Day}, a.name = b.name → a = b := by
  intro a b h
  cases a <;> cases b <;> first | rfl | exact absurd h (by decide)

theorem dayName_mem (d : Day) : d.name ∈ dayNames := by
  cases d <;> simp [Day.name, dayNames]

theorem hoursOnName_name (s : List Shift) (d : Day) : hoursOnName s d.name = daySum s d := by
  unfold hoursOnName daySum
  have hfun : (fun sh : Shift => if sh.day.name = d.name then sh.total_hours.getD 0 else 0) =
      (fun sh : Shift => if sh.day = d then sh.total_hours.getD 0 else 0) := by
    funext sh
    by_cases h : sh.day = d
    · simp [h]
    · have h2 : ¬ sh.day.name = d.name := fun hh => h (Day.name_inj hh)
      simp [h, h2]
  rw [hfun]

/-- The per-day-name coverage test equals universal coverage over the day
enum. -/
theorem daysAll_iff (s : List Shift) :
    (dayNames.all fun dn => decide (8 ≤ hoursOnName s dn)) = true ↔
      ∀ d : Day, 8 ≤ daySum s d := by
  rw [List.all_eq_true]
  constructor
  · intro h d
    have hd := h d.name (dayName_mem d)
    rw [decide_eq_true_eq, hoursOnName_name] at hd
    exact hd
  · intro h dn hdn
    obtain ⟨d, rfl⟩ : ∃ d : Day, d.name = dn := by
      simp only [dayNames, List.mem_cons, List.not_mem_nil, or_false] at hdn
      rcases hdn with rfl | rfl | rfl | rfl | rfl
      · exact ⟨Day.monday, rfl⟩
      · exact ⟨Day.tuesday, rfl⟩
      · exact ⟨Day.wednesday, rfl⟩
      · exact ⟨Day.thursday, rfl⟩
      · exact ⟨Day.friday, rfl⟩
    rw [decide_eq_true_eq, hoursOnName_name]
    exact h d

/-- A schedule the validator accepts is a truthy (non-empty) JSON array. -/
theorem check_true_not_falsy {s : JVal} (h : check_global_constraints s = some true) :
    pyFalsy s = false := by
  cases s with
  | null => exact absurd h (by decide)
  | bool b => cases b <;> exact absurd h (by decide)
  | int n => simp [check_global_constraints, schedIter] at h
  | str s0 =>
    rcases s0 with ⟨data⟩
    cases data with
    | nil => exact absurd h (by decide)
    | cons c cs =>
      simp [check_global_constraints, schedIter, procShifts, procShift] at h
  | arr xs =>
    cases xs with
    | nil => exact absurd h (by decide)
    | cons x t => rfl
  | obj fs =>
    cases fs with
    | nil => exact absurd h (by decide)
    | cons kv t => rfl

/-- A dict with a bound key is non-empty, hence truthy. -/
theorem getField_ne_nil {fs : List (String × JVal)} {k : String} {v : JVal}
    (h : getField fs k = some v) : pyFalsy (JVal.obj fs) = false := by
  cases fs with
  | nil => exact absurd h (by simp [getField])
  | cons a t => rfl

/-! ## Orchestrator lemmas -/

/-- A round whose move says AGREED but fails the validator does not end the
session: the move and the system rejection are appended and the loop
recurses with the turn handed to the other agent. -/
theorem runLoop_step_agreed_invalid (gen : Nat → Option JVal)
    (fuel round idx : Nat) (hist : List HistEntry) (turns : List Nat)
    {fs : List (String × JVal)}
    (hg : gen round = some (JVal.obj fs))
    (hs : getField fs "deal_status" = some (JVal.str "AGREED"))
    (hc : check_global_constraints ((getField fs "proposed_schedule").getD (JVal.arr []))
      = some false) :
    runLoop gen (fuel + 1) round idx hist turns =
      runLoop gen fuel (round + 1) (1 - idx)
        (hist ++ [⟨"model", JVal.dumps (JVal.obj fs)⟩, ⟨"user", rejection_message⟩])
        (turns ++ [idx]) := by
  have hne : pyFalsy (JVal.obj fs) = false := getField_ne_nil hs
  have hA : isStr (JVal.str "AGREED") "AGREED" = true := rfl
  simp only [runLoop, hg, hne, hs, Option.getD_some, hA, hc]

/-- A round whose move says CONTINUE before the last allowed round appends
the serialized move and recurses with the turn handed to the other agent. -/
theorem runLoop_step_continue (gen : Nat → Option JVal)
    (fuel round idx : Nat) (hist : List HistEntry) (turns : List Nat)
    {fs : List (String × JVal)}
    (hg : gen round = some (JVal.obj fs))
    (hs : getField fs "deal_status" = some (JVal.str "CONTINUE"))
    (hround : round ≠ MAX_DEBATE_ROUNDS) :
    runLoop gen (fuel + 1) round idx hist turns =
      runLoop gen fuel (round + 1) (1 - idx)
        (hist ++ [⟨"model", JVal.dumps (JVal.obj fs)⟩]) (turns ++ [idx]) := by
  have hne : pyFalsy (JVal.obj fs) = false := getField_ne_nil hs
  have hA : isStr (JVal.str "CONTINUE") "AGREED" = false := rfl
  have hD : isStr (JVal.str "CONTINUE") "DEADLOCK" = false := rfl
  have hbeq : (round == MAX_DEBATE_ROUNDS) = false := beq_eq_false_iff_ne.mpr hround
  simp only [runLoop, hg, hne, hs, Option.getD_some, hA, hD, hbeq]

theorem chain'_altList :
    ∀ (m i : Nat), i ≤ 1 → List.Chain' (fun a b => b = 1 - a ∧ b ≠ a) (altList i m) := by
  intro m
  induction m with
  | zero =>
    intro i _
    simp [altList]
  | succ m ih =>
    intro i hi
    show List.Chain' (fun a b => b = 1 - a ∧ b ≠ a) (i :: altList (1 - i) m)
    cases m with
    | zero => simp [altList]
    | succ m2 =>
      rw [show altList (1 - i) (m2 + 1) = (1 - i) :: altList (1 - (1 - i)) m2 from rfl,
        List.chain'_cons]
      refine ⟨⟨rfl, by omega⟩, ?_⟩
      exact ih (1 - i) (by omega)

/-- The three loop invariants of `runLoop`: a `final_schedule` exists
exactly for the `agreed` outcome and then carries the validated schedule of
some generated move; every appended history entry has role `user` or
`model`; and the executed turn indices extend the accumulator by an
alternating sequence. -/
theorem runLoop_inv (gen : Nat → Option JVal) :
    ∀ (fuel round idx : Nat) (hist : List HistEntry) (turns : List Nat) (res : SessionResult),
      runLoop gen fuel round idx hist turns = some res →
      ((res.outcome = Outcome.agreed ∧ ∃ k fs,
          gen k = some (JVal.obj fs) ∧
          isStr ((getField fs "deal_status").getD (JVal.str "CONTINUE")) "AGREED" = true ∧
          check_global_constraints ((getField fs "proposed_schedule").getD (JVal.arr []))
            = some true ∧
          res.final_schedule = some ((getField fs "proposed_schedule").getD (JVal.arr []))) ∨
        (res.outcome ≠ Outcome.agreed ∧ res.final_schedule = none)) ∧
      ((∀ e ∈ hist, e.role = "user" ∨ e.role = "model") →
        ∀ e ∈ res.history, e.role = "user" ∨ e.role = "model") ∧
      (∃ m, res.turns = turns ++ altList idx m) := by
  intro fuel
  induction fuel with
  | zero =>
    intro round idx hist turns res h
    simp only [runLoop] at h
    obtain rfl := Option.some.inj h
    exact ⟨Or.inr ⟨(fun hcon => nomatch hcon), rfl⟩, fun hh => hh, ⟨0, by simp [altList]⟩⟩
  | succ fuel ih =>
    intro round idx hist turns res h
    cases hgen : gen round with
    | none =>
      simp only [runLoop, hgen] at h
      obtain rfl := Option.some.inj h
      exact ⟨Or.inr ⟨(fun hcon => nomatch hcon), rfl⟩, fun hh => hh, ⟨1, rfl⟩⟩
    | some rd =>
      simp only [runLoop, hgen] at h
      cases hpf : pyFalsy rd with
      | true =>
        simp only [hpf] at h
        obtain rfl := Option.some.inj h
        exact ⟨Or.inr ⟨(fun hcon => nomatch hcon), rfl⟩, fun hh => hh, ⟨1, rfl⟩⟩
      | false =>
        simp only [hpf] at h
        cases rd with
        | null => exact Option.noConfusion h
        | bool b => exact Option.noConfusion h
        | int n => exact Option.noConfusion h
        | str s0 => exact Option.noConfusion h
        | arr xs => exact Option.noConfusion h
        | obj fs =>
          cases hA : isStr ((getField fs "deal_status").getD (JVal.str "CONTINUE")) "AGREED" with
          | true =>
            simp only [hA] at h
            cases hc : check_global_constraints
                ((getField fs "proposed_schedule").getD (JVal.arr [])) with
            | none =>
              rw [hc] at h
              exact Option.noConfusion h
            | some b =>
              cases b with
              | true =>
                simp only [hc] at h
                obtain rfl := Option.some.inj h
                refine ⟨Or.inl ⟨rfl, round, fs, hgen, hA, hc, rfl⟩, ?_, ⟨1, rfl⟩⟩
                intro hh e he
                rcases List.mem_append.mp he with he | he
                · exact hh e he
                · simp only [List.mem_singleton] at he
                  subst he
                  exact Or.inr rfl
              | false =>
                simp only [hc] at h
                obtain ⟨h1, h2, h3⟩ := ih (round + 1) (1 - idx) _ _ res h
                refine ⟨h1, ?_, ?_⟩
                · intro hh
                  apply h2
                  intro e he
                  rcases List.mem_append.mp he with he | he
                  · exact hh e he
                  · simp only [List.mem_cons, List.mem_singleton, List.not_mem_nil,
                      or_false] at he
                    rcases he with rfl | rfl
                    · exact Or.inr rfl
                    · exact Or.inl rfl
                · obtain ⟨m, hm⟩ := h3
                  exact ⟨m + 1, by rw [hm]; simp [altList, List.append_assoc]⟩
          | false =>
            simp only [hA] at h
            cases hD : isStr ((getField fs "deal_status").getD (JVal.str "CONTINUE"))
                "DEADLOCK" with
            | true =>
              simp only [hD] at h
              obtain rfl := Option.some.inj h
              refine ⟨Or.inr ⟨(fun hcon => nomatch hcon), rfl⟩, ?_, ⟨1, rfl⟩⟩
              intro hh e he
              rcases List.mem_append.mp he with he | he
              · exact hh e he
              · simp only [List.mem_singleton] at he
                subst he
                exact Or.inr rfl
            | false =>
              simp only [hD] at h
              cases hR : (round == MAX_DEBATE_ROUNDS) with
              | true =>
                simp only [hR] at h
                obtain rfl := Option.some.inj h
                refine ⟨Or.inr ⟨(fun hcon => nomatch hcon), rfl⟩, ?_, ⟨1, rfl⟩⟩
                intro hh e he
                rcases List.mem_append.mp he with he | he
                · exact hh e he
                · simp only [List.mem_singleton] at he
                  subst he
                  exact Or.inr rfl
              | false =>
                simp only [hR] at h
                obtain ⟨h1, h2, h3⟩ := ih (round + 1) (1 - idx) _ _ res h
                refine ⟨h1, ?_, ?_⟩
                · intro hh
                  apply h2
                  intro e he
                  rcases List.mem_append.mp he with he | he
                  · exact hh e he
                  · simp only [List.mem_singleton] at he
                    subst he
                    exact Or.inr rfl
                · obtain ⟨m, hm⟩ := h3
                  exact ⟨m + 1, by rw [hm]; simp [altList, List.append_assoc]⟩

/-- A structured result of the whole simulation is exactly a structured
result of the round loop (the final display block returns it unchanged). -/
theorem run_some {gen : Nat → Option JVal} {res : SessionResult}
    (h : run_negotiation_simulation gen = some res) :
    runLoop gen MAX_DEBATE_ROUNDS 1 0 [⟨"user", initial_message⟩] [] = some res := by
  unfold run_negotiation_simulation at h
  cases hl : runLoop gen MAX_DEBATE_ROUNDS 1 0 [⟨"user", initial_message⟩] [] with
  | none =>
    rw [hl] at h
    exact Option.noConfusion h
  | some r =>
    simp only [hl] at h
    cases hf : r.final_schedule with
    | none =>
      simp only [hf] at h
      obtain rfl := Option.some.inj h
      rfl
    | some s =>
      simp only [hf] at h
      by_cases hpf : pyFalsy s = true
      · rw [if_pos hpf] at h
        obtain rfl := Option.some.inj h
        rfl
      · rw [if_neg hpf] at h
        by_cases hd : displayOk s = true
        · rw [if_pos hd] at h
          obtain rfl := Option.some.inj h
          rfl
        · rw [if_neg hd] at h
          exact Option.noConfusion h

/-! ## Claim theorems -/

/-- Claim C1: `check_global_constraints` returns True for every schedule in
which each weekday Monday through Friday has summed `total_hours` at least
8, and returns False whenever some weekday sums below 8, regardless of
per-agent weekly totals; in particular a schedule meeting all daily
minimums while giving AgentA 30 hours for the week still returns True. -/
theorem C1_validator_daily_minimums :
    (∀ s : List Shift, (∀ d : Day, 8 ≤ daySum s d) →
      check_global_constraints (toSched s) = some true) ∧
    (∀ s : List Shift, (∃ d : Day, daySum s d < 8) →
      check_global_constraints (toSched s) = some false) ∧
    check_global_constraints (toSched overCapSchedule) = some true := by
  refine ⟨?_, ?_, by decide⟩
  · intro s h
    rw [check_typed_eq]
    exact congrArg some ((daysAll_iff s).mpr h)
  · intro s h
    obtain ⟨d, hd⟩ := h
    rw [check_typed_eq]
    have hfalse : (dayNames.all fun dn => decide (8 ≤ hoursOnName s dn)) = false := by
      rcases Bool.eq_false_or_eq_true
          (dayNames.all fun dn => decide (8 ≤ hoursOnName s dn)) with hb | hb
      · exact absurd ((daysAll_iff s).mp hb d) (by omega)
      · exact hb
    rw [hfalse]

/-- Claim C1 witness: the all-AgentA full-coverage schedule meets every
daily minimum and the validator accepts it. -/
theorem C1_validator_daily_minimums_witness :
    check_global_constraints (toSched schedAllA) = some true :=
  C1_validator_daily_minimums.1 schedAllA (by intro d; cases d <;> decide)

/-- Claim C2: every structured session end carries one of the four
outcomes; the final schedule is a non-empty value exactly when the outcome
is `agreed`, and then it equals the validated `proposed_schedule` of a
generated move whose AGREED status passed the validator. -/
theorem C2_session_outcome_final_schedule :
    ∀ (gen : Nat → Option JVal) (res : SessionResult),
      run_negotiation_simulation gen = some res →
      (res.outcome = Outcome.agreed ∨ res.outcome = Outcome.deadlock ∨
        res.outcome = Outcome.roundLimitExceeded ∨
        res.outcome = Outcome.generatorFailure) ∧
      ((∃ s, res.final_schedule = some s ∧ pyFalsy s = false) ↔
        res.outcome = Outcome.agreed) ∧
      (res.outcome = Outcome.agreed → ∃ k fs,
        gen k = some (JVal.obj fs) ∧
        isStr ((getField fs "deal_status").getD (JVal.str "CONTINUE")) "AGREED" = true ∧
        check_global_constraints ((getField fs "proposed_schedule").getD (JVal.arr []))
          = some true ∧
        res.final_schedule = some ((getField fs "proposed_schedule").getD (JVal.arr []))) := by
  intro gen res h
  obtain ⟨hfin, hroles, hturns⟩ := runLoop_inv gen MAX_DEBATE_ROUNDS 1 0 _ _ res (run_some h)
  refine ⟨?_, ?_, ?_⟩
  · cases ho : res.outcome
    · exact Or.inl rfl
    · exact Or.inr (Or.inl rfl)
    · exact Or.inr (Or.inr (Or.inl rfl))
    · exact Or.inr (Or.inr (Or.inr rfl))
  · constructor
    · rintro ⟨s, hs, -⟩
      rcases hfin with ⟨ha, -⟩ | ⟨-, hnone⟩
      · exact ha
      · rw [hnone] at hs
        exact Option.noConfusion hs
    · intro ha
      rcases hfin with ⟨-, k, fs, -, -, hct, hfs⟩ | ⟨hna, -⟩
      · exact ⟨_, hfs, check_true_not_falsy hct⟩
      · exact absurd ha hna
  · intro ha
    rcases hfin with ⟨-, hex⟩ | ⟨hna, -⟩
    · exact hex
    · exact absurd ha hna

/-- Claim C2 witness: in scenario A (first-round AGREED with full
coverage), the session ends with outcome `agreed`. -/
theorem C2_session_outcome_final_schedule_witness :
    res_A.outcome = Outcome.agreed :=
  (C2_session_outcome_final_schedule gen_A res_A rfl).2.1.mp ⟨schedAJ, rfl, rfl⟩

/-- Claim C3: when every generated move claims AGREED with a schedule the
validator rejects, the session executes exactly the five allowed rounds and
ends with `roundLimitExceeded` and no final schedule — it neither loops
forever nor accepts an invalid schedule. -/
theorem C3_invalid_agreement_round_limit :
    ∀ gen : Nat → Option JVal,
      (∀ k, 1 ≤ k → k ≤ MAX_DEBATE_ROUNDS → ∃ fs,
        gen k = some (JVal.obj fs) ∧
        getField fs "deal_status" = some (JVal.str "AGREED") ∧
        check_global_constraints ((getField fs "proposed_schedule").getD (JVal.arr []))
          = some false) →
      ∃ res, run_negotiation_simulation gen = some res ∧
        res.outcome = Outcome.roundLimitExceeded ∧ res.final_schedule = none ∧
        res.turns.length = MAX_DEBATE_ROUNDS := by
  intro gen H
  obtain ⟨f1, hg1, hs1, hc1⟩ := H 1 (by decide) (by decide)
  obtain ⟨f2, hg2, hs2, hc2⟩ := H 2 (by decide) (by decide)
  obtain ⟨f3, hg3, hs3, hc3⟩ := H 3 (by decide) (by decide)
  obtain ⟨f4, hg4, hs4, hc4⟩ := H 4 (by decide) (by decide)
  obtain ⟨f5, hg5, hs5, hc5⟩ := H 5 (by decide) (by decide)
  have e1 := runLoop_step_agreed_invalid gen 4 1 0
    [⟨"user", initial_message⟩] [] hg1 hs1 hc1
  have e2 := runLoop_step_agreed_invalid gen 3 2 1
    [userInit, modelEntry f1, userRej] [0] hg2 hs2 hc2
  have e3 := runLoop_step_agreed_invalid gen 2 3 0
    [userInit, modelEntry f1, userRej, modelEntry f2, userRej] [0, 1] hg3 hs3 hc3
  have e4 := runLoop_step_agreed_invalid gen 1 4 1
    [userInit, modelEntry f1, userRej, modelEntry f2, userRej, modelEntry f3, userRej]
    [0, 1, 0] hg4 hs4 hc4
  have e5 := runLoop_step_agreed_invalid gen 0 5 0
    [userInit, modelEntry f1, userRej, modelEntry f2, userRej, modelEntry f3, userRej,
      modelEntry f4, userRej] [0, 1, 0, 1] hg5 hs5 hc5
  have e6 : runLoop gen 0 6 1
      [userInit, modelEntry f1, userRej, modelEntry f2, userRej, modelEntry f3, userRej,
        modelEntry f4, userRej, modelEntry f5, userRej] [0, 1, 0, 1, 0] =
      some ⟨none,
        [userInit, modelEntry f1, userRej, modelEntry f2, userRej, modelEntry f3, userRej,
          modelEntry f4, userRej, modelEntry f5, userRej],
        Outcome.roundLimitExceeded, [0, 1, 0, 1, 0]⟩ := rfl
  have hloop : runLoop gen MAX_DEBATE_ROUNDS 1 0 [⟨"user", initial_message⟩] [] =
      some ⟨none,
        [userInit, modelEntry f1, userRej, modelEntry f2, userRej, modelEntry f3, userRej,
          modelEntry f4, userRej, modelEntry f5, userRej],
        Outcome.roundLimitExceeded, [0, 1, 0, 1, 0]⟩ :=
    e1.trans (e2.trans (e3.trans (e4.trans (e5.trans e6))))
  refine ⟨⟨none,
    [userInit, modelEntry f1, userRej, modelEntry f2, userRej, modelEntry f3, userRej,
      modelEntry f4, userRej, modelEntry f5, userRej],
    Outcome.roundLimitExceeded, [0, 1, 0, 1, 0]⟩, ?_, rfl, rfl, rfl⟩
  unfold run_negotiation_simulation
  simp only [hloop]

/-- Claim C3 witness: the constant AGREED-with-empty-schedule generator
drives the session to the round limit. -/
theorem C3_invalid_agreement_round_limit_witness :
    ∃ res, run_negotiation_simulation gen_inv = some res ∧
      res.outcome = Outcome.roundLimitExceeded ∧ res.final_schedule = none ∧
      res.turns.length = MAX_DEBATE_ROUNDS :=
  C3_invalid_agreement_round_limit gen_inv
    (fun _ _ _ => ⟨moveInv_fields, rfl, rfl, by decide⟩)

/-- Claim C4: the turn indices of the executed rounds of any structured
session strictly alternate — every index is the flip of its predecessor, so
the same agent never takes two consecutive turns. -/
theorem C4_turn_alternation :
    ∀ (gen : Nat → Option JVal) (res : SessionResult),
      run_negotiation_simulation gen = some res →
      List.Chain' (fun a b => b = 1 - a ∧ b ≠ a) res.turns := by
  intro gen res h
  obtain ⟨-, -, m, hm⟩ := runLoop_inv gen MAX_DEBATE_ROUNDS 1 0 _ _ res (run_some h)
  rw [hm, List.nil_append]
  exact chain'_altList m 0 (by decide)

/-- Claim C4 witness: the five-round rejected-agreement session has the
alternating turn trace `[0, 1, 0, 1, 0]`. -/
theorem C4_turn_alternation_witness :
    List.Chain' (fun a b => b = 1 - a ∧ b ≠ a) res_inv.turns :=
  C4_turn_alternation gen_inv res_inv rfl

/-- Claim C5: an AGREED move that fails validation on a round before the
last does not end the session: the serialized move and then a user-role
rejection entry are appended to the history, and the loop recurses exactly
as for a CONTINUE status, with the turn handed to the other agent. -/
theorem C5_agreed_invalid_recovers :
    ∀ (gen : Nat → Option JVal) (fuel round idx : Nat)
      (hist : List HistEntry) (turns : List Nat) (fs : List (String × JVal)),
      gen round = some (JVal.obj fs) →
      getField fs "deal_status" = some (JVal.str "AGREED") →
      check_global_constraints ((getField fs "proposed_schedule").getD (JVal.arr []))
        = some false →
      runLoop gen (fuel + 2) round idx hist turns =
        runLoop gen (fuel + 1) (round + 1) (1 - idx)
          (hist ++ [⟨"model", JVal.dumps (JVal.obj fs)⟩, ⟨"user", rejection_message⟩])
          (turns ++ [idx]) := by
  intro gen fuel round idx hist turns fs hg hs hc
  exact runLoop_step_agreed_invalid gen (fuel + 1) round idx hist turns hg hs hc

/-- Claim C5 witness: the first round of the rejected-agreement session
recurses into round 2 with the rejection entry appended and the turn
switched. -/
theorem C5_agreed_invalid_recovers_witness :
    runLoop gen_inv 2 1 0 [userInit] [] =
      runLoop gen_inv 1 2 1 ([userInit] ++ [modelEntry moveInv_fields, userRej])
        ([] ++ [0]) :=
  C5_agreed_invalid_recovers gen_inv 0 1 0 [userInit] [] moveInv_fields rfl rfl (by decide)

/-- Claim C6 counterexample: a service response whose text parses as JSON
but has none of the Move schema's required fields (the empty object) is
returned by `call_ollama_api` as a success value — not as the
MalformedOutput failure (None) the claim requires for schema-violating
output. -/
theorem C6_schema_not_checked_counterexample :
    call_ollama_api t_parse_ok = some (some (JVal.obj [])) ∧
      some (some (JVal.obj [])) ≠ (some none : Option (Option JVal)) :=
  ⟨rfl, fun h => Option.noConfusion (Option.some.inj h)⟩

/-- Claim C6 amended: a response text that fails JSON parsing after
code-fence stripping makes `call_ollama_api` return None immediately, for
every behavior of the remaining attempts (no retry); but text that parses
as any JSON value is returned as-is, without checking the schema's required
fields. -/
theorem C6_unparseable_returns_none_without_retry :
    ∀ (transport : Nat → TransportR) (body : JVal) (s : String),
      transport 0 = TransportR.ok body →
      getResponseText body = some s →
      json_loads (stripFences s) = none →
      call_ollama_api transport = some none := by
  intro t body s h0 hr hp
  have h : apiGo t (3 + 1) 0 = some none := by
    simp only [apiGo, h0, hr, hp]
  exact h

/-- Claim C6 witness: a non-JSON response text on the first attempt makes
the call return None regardless of the later attempts. -/
theorem C6_unparseable_returns_none_without_retry_witness :
    call_ollama_api t_garbage = some none :=
  C6_unparseable_returns_none_without_retry t_garbage
    (JVal.obj [("response", JVal.str "not json")]) "not json" rfl rfl rfl

/-- Claim C7 counterexample: the value returned after a connection-refused
abort equals the value returned for an unparseable response (both None), so
the two failures are not distinguishable in the returned value — only in
the printed diagnostics. -/
theorem C7_refusal_not_distinguishable_counterexample :
    call_ollama_api t_refused = some none ∧
      call_ollama_api t_garbage2 = some none ∧
      call_ollama_api t_refused = call_ollama_api t_garbage2 :=
  ⟨rfl, rfl, rfl⟩

/-- Claim C7 amended: a connection-refused failure at any attempt (after
only non-refused transport failures) aborts the remaining attempts — the
result is None for every behavior of the later attempts — but that None is
the same value the call returns for malformed output; the two cases differ
only in printed messages. -/
theorem C7_connection_refused_aborts :
    ∀ (transport : Nat → TransportR) (k : Nat), k ≤ 3 →
      (∀ j, j < k → transport j = TransportR.exc false) →
      transport k = TransportR.exc true →
      call_ollama_api transport = some none := by
  intro t k hk hpre hkref
  interval_cases k
  · have h : apiGo t (3 + 1) 0 = some none := by
      simp only [apiGo, hkref]
    exact h
  · have h0 := hpre 0 (by decide)
    have ha : apiGo t (3 + 1) 0 = apiGo t 3 1 := by
      have hb : Nat.blt 0 3 = true := rfl
      simp only [apiGo, h0, hb]
    have hbb : apiGo t (2 + 1) 1 = some none := by
      simp only [apiGo, hkref]
    exact ha.trans hbb
  · have h0 := hpre 0 (by decide)
    have h1 := hpre 1 (by decide)
    have ha : apiGo t (3 + 1) 0 = apiGo t 3 1 := by
      have hb : Nat.blt 0 3 = true := rfl
      simp only [apiGo, h0, hb]
    have hbb : apiGo t (2 + 1) 1 = apiGo t 2 2 := by
      have hb : Nat.blt 1 3 = true := rfl
      simp only [apiGo, h1, hb]
    have hcc : apiGo t (1 + 1) 2 = some none := by
      simp only [apiGo, hkref]
    exact ha.trans (hbb.trans hcc)
  · have h0 := hpre 0 (by decide)
    have h1 := hpre 1 (by decide)
    have h2 := hpre 2 (by decide)
    have ha : apiGo t (3 + 1) 0 = apiGo t 3 1 := by
      have hb : Nat.blt 0 3 = true := rfl
      simp only [apiGo, h0, hb]
    have hbb : apiGo t (2 + 1) 1 = apiGo t 2 2 := by
      have hb : Nat.blt 1 3 = true := rfl
      simp only [apiGo, h1, hb]
    have hcc : apiGo t (1 + 1) 2 = apiGo t 1 3 := by
      have hb : Nat.blt 2 3 = true := rfl
      simp only [apiGo, h2, hb]
    have hdd : apiGo t (0 + 1) 3 = some none := by
      simp only [apiGo, hkref]
    exact ha.trans (hbb.trans (hcc.trans hdd))

/-- Claim C7 witness: connection refused on the first attempt returns None
with no further attempts consulted. -/
theorem C7_connection_refused_aborts_witness :
    call_ollama_api t_refused = some none :=
  C7_connection_refused_aborts t_refused 0 (by decide)
    (fun j hj => absurd hj (by omega)) rfl

/-- Claim C8 counterexample: a structured session contains a history entry
whose role is "model" — neither "user" nor "agent" — so the claim's role
enum does not match the code. -/
theorem C8_history_role_counterexample :
    run_negotiation_simulation gen_dead = some res_dead ∧
      ∃ e ∈ res_dead.history, e.role ≠ "user" ∧ e.role ≠ "agent" :=
  ⟨rfl, ⟨"model", JVal.dumps (JVal.obj move_dead_fields)⟩,
    List.mem_cons.mpr (Or.inr (List.mem_singleton.mpr rfl)),
    by decide, by decide⟩

/-- Claim C8 amended: every history entry of a structured session has role
"user" or "model" (the source labels agent turns "model", not "agent"),
and after each successful generator call the orchestrator appends a
"model"-role entry whose content is the serialized move. -/
theorem C8_history_roles_and_serialization :
    (∀ (gen : Nat → Option JVal) (res : SessionResult),
      run_negotiation_simulation gen = some res →
      ∀ e ∈ res.history, e.role = "user" ∨ e.role = "model") ∧
    (∀ (gen : Nat → Option JVal) (fuel round idx : Nat)
      (hist : List HistEntry) (turns : List Nat) (fs : List (String × JVal)),
      gen round = some (JVal.obj fs) →
      getField fs "deal_status" = some (JVal.str "CONTINUE") →
      round ≠ MAX_DEBATE_ROUNDS →
      runLoop gen (fuel + 1) round idx hist turns =
        runLoop gen fuel (round + 1) (1 - idx)
          (hist ++ [⟨"model", JVal.dumps (JVal.obj fs)⟩]) (turns ++ [idx])) := by
  constructor
  · intro gen res h
    obtain ⟨-, hroles, -⟩ := runLoop_inv gen MAX_DEBATE_ROUNDS 1 0 _ _ res (run_some h)
    apply hroles
    intro e he
    simp only [List.mem_singleton] at he
    subst he
    exact Or.inl rfl
  · intro gen fuel round idx hist turns fs hg hs hr
    exact runLoop_step_continue gen fuel round idx hist turns hg hs hr

/-- Claim C8 witness: the agent-turn entry of the deadlock session carries
one of the two roles the history can hold. -/
theorem C8_history_roles_and_serialization_witness :
    (⟨"model", JVal.dumps (JVal.obj move_dead_fields)⟩ : HistEntry).role = "user" ∨
      (⟨"model", JVal.dumps (JVal.obj move_dead_fields)⟩ : HistEntry).role = "model" :=
  C8_history_roles_and_serialization.1 gen_dead res_dead rfl _
    (List.mem_cons.mpr (Or.inr (List.mem_singleton.mpr rfl)))

/-- Claim C9 counterexample: a move can carry a shift whose agent is
outside the AgentA/AgentB enum; on it the validator raises KeyError (is not
total) and the session crashes instead of ending in a structured
outcome. -/
theorem C9_validator_keyerror_counterexample :
    check_global_constraints badSched = none ∧
      run_negotiation_simulation gen_bad = none :=
  ⟨rfl, rfl⟩

/-- Claim C9 amended: the validator is total only on schema-conforming
schedules — on every well-formed shift list it returns a boolean rather
than raising; shifts with an unknown agent or day, or missing keys, raise
KeyError and crash the session. -/
theorem C9_validator_total_on_wellformed :
    ∀ s : List Shift, (check_global_constraints (toSched s)).isSome = true := by
  intro s
  rw [check_typed_eq]
  rfl

/-- Claim C10: a generator value that is falsy in Python (for example the
empty JSON object) ends the session immediately with the generator-failure
exit, leaving the history exactly as it was — no entry is appended for that
turn. -/
theorem C10_falsy_move_is_generator_failure :
    ∀ (gen : Nat → Option JVal) (fuel round idx : Nat)
      (hist : List HistEntry) (turns : List Nat) (rd : JVal),
      gen round = some rd → pyFalsy rd = true →
      runLoop gen (fuel + 1) round idx hist turns =
        some ⟨none, hist, Outcome.generatorFailure, turns ++ [idx]⟩ := by
  intro gen fuel round idx hist turns rd hg hpf
  simp only [runLoop, hg, hpf]

/-- Claim C10 witness: an empty-object move in round 1 ends the session as
a generator failure with the history still holding only the seed entry. -/
theorem C10_falsy_move_is_generator_failure_witness :
    runLoop gen_empty (4 + 1) 1 0 [userInit] [] =
      some ⟨none, [userInit], Outcome.generatorFailure, [] ++ [0]⟩ :=
  C10_falsy_move_is_generator_failure gen_empty 4 1 0 [userInit] [] (JVal.obj []) rfl rfl

end Scheduler
